import Mathlib

/-!
Verification of the protocol core of `scripts/check-node-pairs.py`.

The script connects to a gateway over a websocket, performs a
challenge/connect handshake, issues one `node.pair.list` RPC and reports
the result.  This file gives a shallow embedding of

* the JSON value model and the wire codec (`json.loads` / `json.dumps`
  restricted to integer numerics, which is all the script produces),
* the closure state of `check_node_pairs` (phase, correlation ids,
  accumulated result, recorded error) and the `on_message` handler as a
  pure step function,
* the trailing error/result arbitration of `check_node_pairs`, and
* the token display of `print_result`,

together with theorems about the protocol state machine.
-/

namespace NodePairs

/-- JSON values as produced by `json.loads`, restricted to integer
numerics (the script itself only ever serializes the integer `3`;
fractional numbers are outside this model). -/
inductive Json where
  | null
  | bool (b : Bool)
  | num (n : Int)
  | str (s : String)
  | arr (items : List Json)
  | obj (entries : List (String × Json))

mutual

/-- Structural equality test on JSON values. -/
def beqJson : Json → Json → Bool
  | .null, .null => true
  | .bool a, .bool b => a == b
  | .num a, .num b => a == b
  | .str a, .str b => a == b
  | .arr a, .arr b => beqJsonList a b
  | .obj a, .obj b => beqJsonPairs a b
  | _, _ => false

def beqJsonList : List Json → List Json → Bool
  | [], [] => true
  | a :: as, b :: bs => beqJson a b && beqJsonList as bs
  | _, _ => false

def beqJsonPairs : List (String × Json) → List (String × Json) → Bool
  | [], [] => true
  | (k, v) :: as, (l, w) :: bs => k == l && beqJson v w && beqJsonPairs as bs
  | _, _ => false

end

mutual

theorem beqJson_iff : ∀ a b : Json, beqJson a b = true ↔ a = b
  | .null, .null => by simp [beqJson]
  | .null, .bool _ => by simp [beqJson]
  | .null, .num _ => by simp [beqJson]
  | .null, .str _ => by simp [beqJson]
  | .null, .arr _ => by simp [beqJson]
  | .null, .obj _ => by simp [beqJson]
  | .bool _, .null => by simp [beqJson]
  | .bool _, .bool _ => by simp [beqJson]
  | .bool _, .num _ => by simp [beqJson]
  | .bool _, .str _ => by simp [beqJson]
  | .bool _, .arr _ => by simp [beqJson]
  | .bool _, .obj _ => by simp [beqJson]
  | .num _, .null => by simp [beqJson]
  | .num _, .bool _ => by simp [beqJson]
  | .num _, .num _ => by simp [beqJson]
  | .num _, .str _ => by simp [beqJson]
  | .num _, .arr _ => by simp [beqJson]
  | .num _, .obj _ => by simp [beqJson]
  | .str _, .null => by simp [beqJson]
  | .str _, .bool _ => by simp [beqJson]
  | .str _, .num _ => by simp [beqJson]
  | .str _, .str _ => by simp [beqJson]
  | .str _, .arr _ => by simp [beqJson]
  | .str _, .obj _ => by simp [beqJson]
  | .arr _, .null => by simp [beqJson]
  | .arr _, .bool _ => by simp [beqJson]
  | .arr _, .num _ => by simp [beqJson]
  | .arr _, .str _ => by simp [beqJson]
  | .arr a, .arr b => by simp [beqJson, beqJsonList_iff a b]
  | .arr _, .obj _ => by simp [beqJson]
  | .obj _, .null => by simp [beqJson]
  | .obj _, .bool _ => by simp [beqJson]
  | .obj _, .num _ => by simp [beqJson]
  | .obj _, .str _ => by simp [beqJson]
  | .obj _, .arr _ => by simp [beqJson]
  | .obj a, .obj b => by simp [beqJson, beqJsonPairs_iff a b]

theorem beqJsonList_iff : ∀ a b : List Json, beqJsonList a b = true ↔ a = b
  | [], [] => by simp [beqJsonList]
  | [], _ :: _ => by simp [beqJsonList]
  | _ :: _, [] => by simp [beqJsonList]
  | a :: as, b :: bs => by
      simp [beqJsonList, beqJson_iff a b, beqJsonList_iff as bs]

theorem beqJsonPairs_iff :
    ∀ a b : List (String × Json), beqJsonPairs a b = true ↔ a = b
  | [], [] => by simp [beqJsonPairs]
  | [], _ :: _ => by simp [beqJsonPairs]
  | _ :: _, [] => by simp [beqJsonPairs]
  | (k, v) :: as, (l, w) :: bs => by
      simp [beqJsonPairs, beqJson_iff v w, beqJsonPairs_iff as bs, and_assoc]

end

instance : DecidableEq Json := fun a b => decidable_of_iff _ (beqJson_iff a b)

/-- Python truthiness of a JSON-decoded value (`if frame.get("ok"):` and
`if error_msg:` test truthiness, not presence). -/
def truthy : Json → Bool
  | .null => false
  | .bool b => b
  | .num n => n != 0
  | .str s => s != ""
  | .arr xs => !xs.isEmpty
  | .obj kvs => !kvs.isEmpty

/-- Dictionary lookup; on duplicate keys the last occurrence wins, as in
a Python `dict` built by `json.loads`. -/
def lookupLast (kvs : List (String × Json)) (k : String) : Option Json :=
  kvs.foldl (fun acc kv => if kv.1 = k then some kv.2 else acc) none

/-- Key lookup on a JSON value: `none` unless the value is a mapping
containing the key. -/
def Json.find? : Json → String → Option Json
  | .obj kvs, k => lookupLast kvs k
  | _, _ => none

/-- Python `frame.get(k, d)` on a value known to be a `dict`. -/
def Json.getD (j : Json) (k : String) (d : Json) : Json :=
  (j.find? k).getD d

/-- Python type name of a JSON-decoded value, as it appears in an
`AttributeError` message. -/
def Json.pyTypeName : Json → String
  | .null => "NoneType"
  | .bool _ => "bool"
  | .num _ => "int"
  | .str _ => "str"
  | .arr _ => "list"
  | .obj _ => "dict"

/-- Message of the `AttributeError` raised by `x.get(...)` when `x` is
not a `dict`. -/
def attrGetMsg (j : Json) : String :=
  "\x27" ++ j.pyTypeName ++ "\x27 object has no attribute \x27get\x27"

/-- Python `x.get(k, d)`: the looked-up value when `x` is a `dict`,
otherwise the `AttributeError` that the attribute access raises. -/
def pyGet (j : Json) (k : String) (d : Json) : Except String Json :=
  match j with
  | .obj kvs => .ok ((lookupLast kvs k).getD d)
  | _ => .error (attrGetMsg j)

/-- The three values of the `phase` variable of `check_node_pairs`:
`"awaiting-challenge"`, `"awaiting-hello"` (the spec's
`AwaitingConnectAck`) and `"awaiting-response"` (the spec's
`AwaitingCallResult`). -/
inductive Phase where
  | awaitingChallenge
  | awaitingHello
  | awaitingResponse
deriving DecidableEq

/-- The closure state mutated by the websocket callbacks of
`check_node_pairs`: `phase`, `response_received`, `result` and
`error_msg`. -/
structure Session where
  phase : Phase
  responseReceived : Bool
  result : Json
  errorMsg : Option Json
deriving DecidableEq

/-- The per-invocation constants of `check_node_pairs`: the two
generated correlation ids (`connect_id`, `rpc_id`) and the supplied
bearer token. -/
structure Ctx where
  connectId : String
  rpcId : String
  token : String

/-- Result of one `on_message` invocation: the updated closure state,
the frames passed to `ws.send`, and whether `ws.close()` was called. -/
structure StepOut where
  sess : Session
  sent : List Json
  closed : Bool
deriving DecidableEq

/-- The `{"pending": [], "paired": []}` default value. -/
def defaultResult : Json := .obj [("pending", .arr []), ("paired", .arr [])]

/-- The `params` object of the connect request (lines 81–94 of the
script). -/
def connectParams (c : Ctx) : Json :=
  .obj [("minProtocol", .num 3),
        ("maxProtocol", .num 3),
        ("client", .obj
          [("id", .str "check-node-pairs"),
           ("version", .str "1.0.0"),
           ("platform", .str "cli"),
           ("mode", .str "backend")]),
        ("role", .str "operator"),
        ("scopes", .arr
          [.str "operator.read", .str "operator.write",
           .str "operator.pairing", .str "operator.admin"]),
        ("caps", .arr []),
        ("auth", .obj [("token", .str c.token)])]

/-- The connect request built in phase `awaiting-challenge`
(lines 77–95 of the script). -/
def connectReq (c : Ctx) : Json :=
  .obj [("type", .str "req"),
        ("id", .str c.connectId),
        ("method", .str "connect"),
        ("params", connectParams c)]

/-- The `node.pair.list` request built in phase `awaiting-hello`
(lines 104–109 of the script). -/
def rpcReq (c : Ctx) : Json :=
  .obj [("type", .str "req"),
        ("id", .str c.rpcId),
        ("method", .str "node.pair.list"),
        ("params", .obj [])]

/-- The body of `on_message` after `json.loads` has succeeded.  `se`
models the transport's `ws.send`: `none` for success, `some e` when the
send raises an exception with text `e`; the script's
`except Exception as e: error_msg = str(e)` handler is inlined at every
raise site (`ws.send` calls, and the `.get` attribute access on a
non-`dict` `error` field).  Note that the `phase` assignment precedes
`ws.send` in both sending branches, exactly as in the source. -/
def handleFrame (c : Ctx) (se : Json → Option String) (s : Session)
    (frame : Json) : StepOut :=
  match frame.find? "type" with
  | none => ⟨s, [], false⟩
  | some ftype =>
    match s.phase with
    | .awaitingChallenge =>
      if ftype = .str "event" ∧ frame.getD "event" .null = .str "connect.challenge" then
        let s1 := { s with phase := .awaitingHello }
        match se (connectReq c) with
        | some e => ⟨{ s1 with errorMsg := some (.str e) }, [], false⟩
        | none => ⟨s1, [connectReq c], false⟩
      else ⟨s, [], false⟩
    | .awaitingHello =>
      if ftype = .str "res" ∧ frame.getD "id" .null = .str c.connectId then
        if truthy (frame.getD "ok" .null) then
          let s1 := { s with phase := .awaitingResponse }
          match se (rpcReq c) with
          | some e => ⟨{ s1 with errorMsg := some (.str e) }, [], false⟩
          | none => ⟨s1, [rpcReq c], false⟩
        else
          match pyGet (frame.getD "error" (.obj [])) "message" (.str "Handshake failed") with
          | .ok m => ⟨{ s with errorMsg := some m }, [], true⟩
          | .error e => ⟨{ s with errorMsg := some (.str e) }, [], false⟩
      else ⟨s, [], false⟩
    | .awaitingResponse =>
      if ftype = .str "res" ∧ frame.getD "id" .null = .str c.rpcId then
        if truthy (frame.getD "ok" .null) then
          ⟨{ s with result := frame.getD "payload" defaultResult,
                    responseReceived := true }, [], true⟩
        else
          match pyGet (frame.getD "error" (.obj [])) "message" (.str "RPC error") with
          | .ok m => ⟨{ s with errorMsg := some m }, [], true⟩
          | .error e => ⟨{ s with errorMsg := some (.str e) }, [], false⟩
      else ⟨s, [], false⟩

/-- The `on_error` callback: `error_msg = str(error)`. -/
def onError (s : Session) (err : String) : Session :=
  { s with errorMsg := some (.str err) }

/-- The `on_close` callback: `response_received = True`. -/
def onClose (s : Session) : Session :=
  { s with responseReceived := true }

/-- The closure state at the start of `check_node_pairs`. -/
def initialSession : Session :=
  ⟨.awaitingChallenge, false, defaultResult, none⟩

/-- Lines 154–157 of the script: after `run_forever` returns, a truthy
`error_msg` is raised, otherwise `result` is returned. -/
def finish (s : Session) : Except Json Json :=
  match s.errorMsg with
  | some m => if truthy m then .error m else .ok s.result
  | none => .ok s.result

/-- Token display of `print_result` (lines 192–194) for a string token:
`if token: print(f"    Token: {token[:20]}...")`.  Python's `token[:20]`
takes the first 20 characters. -/
def tokenShown (t : String) : Option String :=
  if t = "" then none
  else some ("    Token: " ++ String.mk (t.data.take 20) ++ "...")

/-! ### Wire codec

`json.dumps` with its default options (separators `", "` and `": "`,
`ensure_ascii=True`), and `json.loads`, both restricted to integer
numerics.  The serializer works on character lists. -/

/-- Hexadecimal digit character (lowercase), as emitted by the
`ensure_ascii` escaping of `json.dumps`. -/
def hexDigitChar (n : Nat) : Char :=
  if n < 10 then Char.ofNat (48 + n) else Char.ofNat (87 + n)

/-- Four-digit hexadecimal rendering of `n < 0x10000`. -/
def hex4 (n : Nat) : List Char :=
  [hexDigitChar (n / 4096 % 16), hexDigitChar (n / 256 % 16),
   hexDigitChar (n / 16 % 16), hexDigitChar (n % 16)]

/-- Escaping of one character by `json.dumps` with `ensure_ascii=True`:
shortcut escapes for `"  \  \n  \r  \t  \b  \f`, `\uXXXX` for every
other character outside `0x20`–`0x7e` (a surrogate pair above
`0xFFFF`), and the character itself otherwise. -/
def escapeChar (c : Char) : List Char :=
  if c = '"' then ['\\', '"']
  else if c = '\\' then ['\\', '\\']
  else if c = '\n' then ['\\', 'n']
  else if c = '\r' then ['\\', 'r']
  else if c = '\t' then ['\\', 't']
  else if c.toNat = 8 then ['\\', 'b']
  else if c.toNat = 12 then ['\\', 'f']
  else if c.toNat < 32 ∨ 126 < c.toNat then
    if c.toNat < 65536 then '\\' :: 'u' :: hex4 c.toNat
    else ('\\' :: 'u' :: hex4 (55296 + (c.toNat - 65536) / 1024)) ++
         ('\\' :: 'u' :: hex4 (56320 + (c.toNat - 65536) % 1024))
  else [c]

/-- Escaped body of a string literal. -/
def escList (s : List Char) : List Char := (s.map escapeChar).flatten

/-- Serialized string literal, including the surrounding quotes. -/
def serStrLit (s : String) : List Char := '"' :: escList s.data ++ ['"']

/-- Decimal digit character. -/
def digitChar (d : Nat) : Char := Char.ofNat (48 + d)

/-- Big-endian decimal digits of `n` (fuel-indexed worker). -/
def natDigsAux : Nat → Nat → List Char
  | 0, _ => []
  | fuel + 1, n =>
    if n < 10 then [digitChar n]
    else natDigsAux fuel (n / 10) ++ [digitChar (n % 10)]

/-- Big-endian decimal digits of `n`, without leading zeros. -/
def natDigs (n : Nat) : List Char := natDigsAux (n + 1) n

/-- Decimal rendering of an integer, as `json.dumps` emits it. -/
def serNum (n : Int) : List Char :=
  if n < 0 then '-' :: natDigs n.natAbs else natDigs n.natAbs

mutual

/-- Serialization of a JSON value: `json.dumps` with the default
separators `", "` and `": "`. -/
def serJson : Json → List Char
  | .null => ['n', 'u', 'l', 'l']
  | .bool b => if b then ['t', 'r', 'u', 'e'] else ['f', 'a', 'l', 's', 'e']
  | .num n => serNum n
  | .str s => serStrLit s
  | .arr [] => ['[', ']']
  | .arr (x :: xs) => '[' :: (serJson x ++ serItemsRest xs) ++ [']']
  | .obj [] => ['{', '}']
  | .obj ((k, v) :: kvs) =>
      '{' :: (serStrLit k ++ ':' :: ' ' :: serJson v ++ serMembersRest kvs) ++ ['}']

/-- Remaining array elements, each preceded by `", "`. -/
def serItemsRest : List Json → List Char
  | [] => []
  | y :: ys => ',' :: ' ' :: serJson y ++ serItemsRest ys

/-- Remaining object members, each preceded by `", "`. -/
def serMembersRest : List (String × Json) → List Char
  | [] => []
  | (k, v) :: kvs => ',' :: ' ' :: serStrLit k ++ ':' :: ' ' :: serJson v ++ serMembersRest kvs

end

/-- Serialization to a string, i.e. `json.dumps`. -/
def jsonDumps (j : Json) : String := String.mk (serJson j)

/-- The whitespace characters skipped by `json.loads`. -/
def isWsChar (c : Char) : Bool :=
  c = ' ' || c = '\t' || c = '\n' || c = '\r'

/-- Drop leading JSON whitespace. -/
def skipWs : List Char → List Char
  | [] => []
  | c :: cs => if isWsChar c then skipWs cs else c :: cs

/-- Value of a hexadecimal digit character (either case). -/
def hexVal? (c : Char) : Option Nat :=
  if 48 ≤ c.toNat ∧ c.toNat ≤ 57 then some (c.toNat - 48)
  else if 97 ≤ c.toNat ∧ c.toNat ≤ 102 then some (c.toNat - 87)
  else if 65 ≤ c.toNat ∧ c.toNat ≤ 70 then some (c.toNat - 55)
  else none

/-- Four hexadecimal digits, as after `\u` in a string literal. -/
def parseHex4 : List Char → Option (Nat × List Char)
  | a :: b :: c :: d :: rest =>
    match hexVal? a, hexVal? b, hexVal? c, hexVal? d with
    | some x, some y, some z, some w => some (x * 4096 + y * 256 + z * 16 + w, rest)
    | _, _, _, _ => none
  | _ => none

/-- The single-character escapes accepted after a backslash. -/
def simpleEscape (e : Char) : Option Char :=
  if e = '"' then some '"'
  else if e = '\\' then some '\\'
  else if e = '/' then some '/'
  else if e = 'b' then some (Char.ofNat 8)
  else if e = 'f' then some (Char.ofNat 12)
  else if e = 'n' then some '\n'
  else if e = 'r' then some '\r'
  else if e = 't' then some '\t'
  else none

/-- Body of a string literal after the opening quote, fuel-indexed (one
unit of fuel per decoded character).  Returns the decoded characters
and the input after the closing quote.  Unescaped control characters
are rejected (`strict=True`); a `\uXXXX` escape denoting a surrogate
must pair up with a directly following mate (a lone surrogate would
decode to a Python string with no counterpart among Unicode scalar
values, which is outside this model). -/
def strBody : Nat → List Char → Option (List Char × List Char)
  | 0, _ => none
  | _ + 1, [] => none
  | fuel + 1, c :: cs1 =>
    if c = '"' then some ([], cs1)
    else if c = '\\' then
      match cs1 with
      | [] => none
      | e :: cs2 =>
        if e = 'u' then
          match parseHex4 cs2 with
          | none => none
          | some (n, cs3) =>
            if n < 55296 ∨ 57344 ≤ n then
              match strBody fuel cs3 with
              | none => none
              | some (content, rest) => some (Char.ofNat n :: content, rest)
            else if n < 56320 then
              match cs3 with
              | '\\' :: 'u' :: cs4 =>
                match parseHex4 cs4 with
                | none => none
                | some (m, cs5) =>
                  if 56320 ≤ m ∧ m < 57344 then
                    match strBody fuel cs5 with
                    | none => none
                    | some (content, rest) =>
                        some (Char.ofNat (65536 + (n - 55296) * 1024 + (m - 56320)) :: content, rest)
                  else none
              | _ => none
            else none
        else
          match simpleEscape e with
          | none => none
          | some c2 =>
            match strBody fuel cs2 with
            | none => none
            | some (content, rest) => some (c2 :: content, rest)
    else if c.toNat < 32 then none
    else
      match strBody fuel cs1 with
      | none => none
      | some (content, rest) => some (c :: content, rest)

/-- Body of a string literal after the opening quote.  Every recursion
step of `strBody` consumes at least one input character, so
`length + 1` units of fuel always suffice. -/
def parseStrRest (cs : List Char) : Option (List Char × List Char) :=
  strBody (cs.length + 1) cs

/-- Decimal digit test. -/
def isDigitChar (c : Char) : Bool := 48 ≤ c.toNat && c.toNat ≤ 57

/-- Longest digit prefix and the remaining input. -/
def spanDigits : List Char → List Char × List Char
  | [] => ([], [])
  | c :: t =>
    if isDigitChar c then
      let p := spanDigits t
      (c :: p.1, p.2)
    else ([], c :: t)

/-- Fold decimal digit characters into a number. -/
def digitsToNat (ds : List Char) : Nat :=
  ds.foldl (fun a c => a * 10 + (c.toNat - 48)) 0

/-- Reject a number whose integer part is directly followed by a
fraction or exponent marker: such a literal is a float in Python, which
is outside this model of JSON values. -/
def checkIntEnd (n : Nat) (rest : List Char) : Option (Nat × List Char) :=
  match rest with
  | c :: _ => if c = '.' ∨ c = 'e' ∨ c = 'E' then none else some (n, rest)
  | [] => some (n, rest)

/-- Unsigned JSON integer: `0`, or a nonzero digit followed by digits
(leading zeros are rejected, as by Python's number grammar). -/
def parseNumNat (cs : List Char) : Option (Nat × List Char) :=
  match cs with
  | [] => none
  | c :: t =>
    if c = '0' then checkIntEnd 0 t
    else if isDigitChar c then
      let p := spanDigits t
      checkIntEnd (digitsToNat (c :: p.1)) p.2
    else none

/-- Signed JSON integer. -/
def parseNum (cs : List Char) : Option (Json × List Char) :=
  match cs with
  | c :: t =>
    if c = '-' then (parseNumNat t).map (fun p => (Json.num (-(p.1 : Int)), p.2))
    else (parseNumNat (c :: t)).map (fun p => (Json.num (p.1 : Int), p.2))
  | [] => none

mutual

/-- One JSON value at the head of the input (whitespace already
skipped), fuel-indexed.  Mirrors the grammar accepted by `json.loads`,
minus floats and the `NaN`/`Infinity` spellings, which denote Python
floats and are outside this model. -/
def parseVal : Nat → List Char → Option (Json × List Char)
  | 0, _ => none
  | _ + 1, [] => none
  | fuel + 1, c :: rest =>
    if c = '"' then
      (parseStrRest rest).map (fun p => (Json.str (String.mk p.1), p.2))
    else if c = '{' then
      match skipWs rest with
      | [] => none
      | c2 :: rest2 =>
        if c2 = '}' then some (Json.obj [], rest2)
        else (parseMembers fuel (c2 :: rest2)).map (fun p => (Json.obj p.1, p.2))
    else if c = '[' then
      match skipWs rest with
      | [] => none
      | c2 :: rest2 =>
        if c2 = ']' then some (Json.arr [], rest2)
        else (parseItems fuel (c2 :: rest2)).map (fun p => (Json.arr p.1, p.2))
    else if c = 'n' then
      match rest with
      | 'u' :: 'l' :: 'l' :: rest2 => some (Json.null, rest2)
      | _ => none
    else if c = 't' then
      match rest with
      | 'r' :: 'u' :: 'e' :: rest2 => some (Json.bool true, rest2)
      | _ => none
    else if c = 'f' then
      match rest with
      | 'a' :: 'l' :: 's' :: 'e' :: rest2 => some (Json.bool false, rest2)
      | _ => none
    else parseNum (c :: rest)

/-- Nonempty comma-separated element list of an array, up to and
including the closing bracket. -/
def parseItems : Nat → List Char → Option (List Json × List Char)
  | 0, _ => none
  | fuel + 1, cs =>
    match parseVal fuel cs with
    | none => none
    | some (v, rest) =>
      match skipWs rest with
      | [] => none
      | c2 :: rest2 =>
        if c2 = ',' then (parseItems fuel (skipWs rest2)).map (fun p => (v :: p.1, p.2))
        else if c2 = ']' then some ([v], rest2)
        else none

/-- Nonempty comma-separated member list of an object, up to and
including the closing brace. -/
def parseMembers : Nat → List Char → Option (List (String × Json) × List Char)
  | 0, _ => none
  | fuel + 1, cs =>
    match cs with
    | [] => none
    | c0 :: rest =>
      if c0 = '"' then
        match parseStrRest rest with
        | none => none
        | some (key, rest1) =>
          match skipWs rest1 with
          | [] => none
          | c1 :: rest2 =>
            if c1 = ':' then
              match parseVal fuel (skipWs rest2) with
              | none => none
              | some (v, rest3) =>
                match skipWs rest3 with
                | [] => none
                | c3 :: rest4 =>
                  if c3 = ',' then
                    (parseMembers fuel (skipWs rest4)).map
                      (fun p => ((String.mk key, v) :: p.1, p.2))
                  else if c3 = '}' then some ([(String.mk key, v)], rest4)
                  else none
            else none
      else none

end

/-- The whole of `json.loads`: skip leading whitespace, read one value,
require only whitespace to remain.  `parseVal` spends at most one unit
of fuel per consumed input character, so `length + 1` units suffice. -/
def jsonLoads (s : String) : Option Json :=
  let cs := skipWs s.data
  match parseVal (cs.length + 1) cs with
  | some (v, rest) => if skipWs rest = [] then some v else none
  | none => none

/-- The whole `on_message` callback: decode the raw text; a decode
failure is swallowed by the `except` clause, a decoded value that is
not a `dict` or lacks a `"type"` key is dropped by the guard, and
anything else is handled by the state machine. -/
def handleMessage (c : Ctx) (se : Json → Option String) (s : Session)
    (raw : String) : StepOut :=
  match jsonLoads raw with
  | none => ⟨s, [], false⟩
  | some frame => handleFrame c se s frame

/-- Drive the handler over a sequence of raw inbound messages, as the
transport delivers them one at a time; once `ws.close()` has been
requested, delivery stops.  Returns the final state, every frame passed
to `ws.send`, and the close flag. -/
def runMsgs (c : Ctx) (se : Json → Option String) :
    Session → Bool → List String → Session × List Json × Bool
  | s, closed, [] => (s, [], closed)
  | s, closed, m :: ms =>
    if closed then (s, [], true)
    else
      let o := handleMessage c se s m
      let r := runMsgs c se o.sess o.closed ms
      (r.1, o.sent ++ r.2.1, r.2.2)

/-! ### Concrete sessions and frames used in example runs -/

/-- A concrete invocation context. -/
def cexCtx : Ctx := ⟨"cid-1", "rid-2", "tok"⟩

/-- A send oracle for a healthy transport: `ws.send` never raises. -/
def noSend : Json → Option String := fun _ => none

/-- A send oracle for a transport whose `ws.send` raises an exception
with text `boom`. -/
def boomSend : Json → Option String := fun _ => some "boom"

/-- The closure state after the challenge has been answered. -/
def helloSession : Session := { initialSession with phase := .awaitingHello }

/-- The closure state after the connect acknowledgement. -/
def respSession : Session := { initialSession with phase := .awaitingResponse }

/-- A `connect.challenge` event frame. -/
def challengeFrame : Json :=
  .obj [("type", .str "event"), ("event", .str "connect.challenge")]

/-- A matching connect response with `ok: true`. -/
def okTrueConnectRes : Json :=
  .obj [("type", .str "res"), ("id", .str "cid-1"), ("ok", .bool true)]

/-- A matching connect response with `ok: false` and no error field. -/
def okFalseConnectRes : Json :=
  .obj [("type", .str "res"), ("id", .str "cid-1"), ("ok", .bool false)]

/-! ### Codec correctness: string literals -/

theorem char_toNat_valid (c : Char) :
    c.toNat < 55296 ∨ (57344 ≤ c.toNat ∧ c.toNat < 1114112) := by
  have h : c.toNat.isValidChar := c.valid
  simpa [Nat.isValidChar] using h

theorem hexVal_hexDigitChar : ∀ d < 16, hexVal? (hexDigitChar d) = some d := by decide

theorem parseHex4_hex4 (n : Nat) (hn : n < 65536) (rest : List Char) :
    parseHex4 (hex4 n ++ rest) = some (n, rest) := by
  have h1 : n / 4096 % 16 < 16 := Nat.mod_lt _ (by norm_num)
  have h2 : n / 256 % 16 < 16 := Nat.mod_lt _ (by norm_num)
  have h3 : n / 16 % 16 < 16 := Nat.mod_lt _ (by norm_num)
  have h4 : n % 16 < 16 := Nat.mod_lt _ (by norm_num)
  simp [hex4, parseHex4, hexVal_hexDigitChar _ h1, hexVal_hexDigitChar _ h2,
        hexVal_hexDigitChar _ h3, hexVal_hexDigitChar _ h4]
  omega

theorem strBody_surrogatePair (hi lo : Nat) (hhi1 : hi < 65536) (hlo1 : lo < 65536)
    (hA1 : ¬(hi < 55296)) (hA2 : ¬(57344 ≤ hi)) (hB : hi < 56320)
    (hC1 : 56320 ≤ lo) (hC2 : lo < 57344) (T : List Char) (fuel : Nat) :
    strBody (fuel + 1) ((('\\' :: 'u' :: hex4 hi) ++ ('\\' :: 'u' :: hex4 lo)) ++ T) =
      (strBody fuel T).map
        (fun p => (Char.ofNat (65536 + (hi - 55296) * 1024 + (lo - 56320)) :: p.1, p.2)) := by
  rcases hO : strBody fuel T with _ | ⟨content, rest⟩ <;>
    simp [strBody, parseHex4_hex4 _ hhi1, parseHex4_hex4 _ hlo1, hA1, hA2,
          hB, hC1, hC2, hO]

theorem strBody_escapeChar (c : Char) (T : List Char) (fuel : Nat) :
    strBody (fuel + 1) (escapeChar c ++ T) =
      (strBody fuel T).map (fun p => (c :: p.1, p.2)) := by
  have hval := char_toNat_valid c
  unfold escapeChar
  split_ifs with h1 h2 h3 h4 h5 h6 h7 h8 h9
  · subst h1
    rcases hO : strBody fuel T with _ | ⟨content, rest⟩ <;>
      simp [strBody, simpleEscape, hO]
  · subst h2
    rcases hO : strBody fuel T with _ | ⟨content, rest⟩ <;>
      simp [strBody, simpleEscape, hO]
  · subst h3
    rcases hO : strBody fuel T with _ | ⟨content, rest⟩ <;>
      simp [strBody, simpleEscape, hO]
  · subst h4
    rcases hO : strBody fuel T with _ | ⟨content, rest⟩ <;>
      simp [strBody, simpleEscape, hO]
  · subst h5
    rcases hO : strBody fuel T with _ | ⟨content, rest⟩ <;>
      simp [strBody, simpleEscape, hO]
  · -- c.toNat = 8, i.e. backspace
    have hc : c = Char.ofNat 8 := by
      have := Char.ofNat_toNat c
      rw [h6] at this
      exact this.symm
    subst hc
    rcases hO : strBody fuel T with _ | ⟨content, rest⟩ <;>
      simp [strBody, simpleEscape, hO]
  · -- c.toNat = 12, i.e. formfeed
    have hc : c = Char.ofNat 12 := by
      have := Char.ofNat_toNat c
      rw [h7] at this
      exact this.symm
    subst hc
    rcases hO : strBody fuel T with _ | ⟨content, rest⟩ <;>
      simp [strBody, simpleEscape, hO]
  · -- single \uXXXX escape
    have hval' : c.toNat < 55296 ∨ 57344 ≤ c.toNat := by omega
    rcases hO : strBody fuel T with _ | ⟨content, rest⟩ <;>
      simp [strBody, parseHex4_hex4 c.toNat h9, hval', hO, Char.ofNat_toNat]
  · -- surrogate pair
    have hup : c.toNat < 1114112 := by omega
    have hlow : 65536 ≤ c.toNat := by omega
    have hhi1 : 55296 + (c.toNat - 65536) / 1024 < 65536 := by omega
    have hlo1 : 56320 + (c.toNat - 65536) % 1024 < 65536 := by
      have := Nat.mod_lt (c.toNat - 65536) (y := 1024) (by norm_num)
      omega
    have hdiv : (c.toNat - 65536) / 1024 < 1024 := by
      have : c.toNat - 65536 < 1048576 := by omega
      omega
    have hmod : (c.toNat - 65536) % 1024 < 1024 :=
      Nat.mod_lt _ (by norm_num)
    have hA1 : ¬(55296 + (c.toNat - 65536) / 1024 < 55296) := by omega
    have hA2 : ¬(57344 ≤ 55296 + (c.toNat - 65536) / 1024) := by omega
    have hB : 55296 + (c.toNat - 65536) / 1024 < 56320 := by omega
    have hC1 : 56320 ≤ 56320 + (c.toNat - 65536) % 1024 := by omega
    have hC2 : 56320 + (c.toNat - 65536) % 1024 < 57344 := by omega
    rw [strBody_surrogatePair _ _ hhi1 hlo1 hA1 hA2 hB hC1 hC2 T fuel]
    have hc : Char.ofNat (65536 + (55296 + (c.toNat - 65536) / 1024 - 55296) * 1024 +
        (56320 + (c.toNat - 65536) % 1024 - 56320)) = c := by
      rw [show 65536 + (55296 + (c.toNat - 65536) / 1024 - 55296) * 1024 +
            (56320 + (c.toNat - 65536) % 1024 - 56320) = c.toNat from by omega,
          Char.ofNat_toNat]
    rw [hc]
  · -- plain character
    have hge : 32 ≤ c.toNat ∧ c.toNat ≤ 126 := by omega
    rcases hO : strBody fuel T with _ | ⟨content, rest⟩ <;>
      simp [strBody, h1, h2, hge, hO]

theorem escList_cons (c : Char) (cs : List Char) :
    escList (c :: cs) = escapeChar c ++ escList cs := by
  simp [escList]

theorem strBody_escList (s : List Char) :
    ∀ fuel, s.length + 1 ≤ fuel → ∀ rest,
      strBody fuel (escList s ++ '"' :: rest) = some (s, rest) := by
  induction s with
  | nil =>
    intro fuel h rest
    obtain ⟨f, rfl⟩ : ∃ f, fuel = f + 1 := ⟨fuel - 1, by omega⟩
    simp [escList, strBody]
  | cons c cs ih =>
    intro fuel h rest
    obtain ⟨f, rfl⟩ : ∃ f, fuel = f + 1 := ⟨fuel - 1, by omega⟩
    rw [escList_cons, List.append_assoc, strBody_escapeChar,
        ih f (by simp at h; omega) rest]
    rfl

theorem escapeChar_length_pos (c : Char) : 1 ≤ (escapeChar c).length := by
  unfold escapeChar
  split_ifs <;> simp

theorem escList_length (s : List Char) : s.length ≤ (escList s).length := by
  induction s with
  | nil => simp [escList]
  | cons c cs ih =>
    rw [escList_cons]
    have h := escapeChar_length_pos c
    simp only [List.length_append, List.length_cons]
    omega

theorem parseStrRest_escList (s : List Char) (rest : List Char) :
    parseStrRest (escList s ++ '"' :: rest) = some (s, rest) := by
  unfold parseStrRest
  apply strBody_escList
  have h := escList_length s
  simp only [List.length_append, List.length_cons]
  omega

/-! ### Codec correctness: numbers -/

theorem digitChar_toNat : ∀ d < 10, (digitChar d).toNat = 48 + d := by decide

theorem isDigitChar_digitChar : ∀ d < 10, isDigitChar (digitChar d) = true := by decide

theorem digitChar_eq_zero : ∀ d < 10, (digitChar d = '0' ↔ d = 0) := by decide

theorem natDigsAux_spec :
    ∀ fuel n, n < fuel →
      natDigsAux fuel n ≠ [] ∧
      (∀ c ∈ natDigsAux fuel n, isDigitChar c = true) ∧
      digitsToNat (natDigsAux fuel n) = n ∧
      (∀ t, n ≠ 0 → natDigsAux fuel n ≠ '0' :: t) := by
  intro fuel
  induction fuel with
  | zero => intro n hn; omega
  | succ f ih =>
    intro n hn
    by_cases h10 : n < 10
    · refine ⟨by simp [natDigsAux, h10], ?_, ?_, ?_⟩
      · intro c hc
        simp [natDigsAux, h10] at hc
        subst hc
        exact isDigitChar_digitChar n h10
      · simp [natDigsAux, h10, digitsToNat, digitChar_toNat n h10]
      · intro t hne heq
        simp [natDigsAux, h10] at heq
        exact hne ((digitChar_eq_zero n h10).mp heq.1)
    · have hdiv : n / 10 < f := by omega
      obtain ⟨hne, hdigs, hval, hhead⟩ := ih (n / 10) hdiv
      have hmod : n % 10 < 10 := Nat.mod_lt _ (by norm_num)
      rcases hA : natDigsAux f (n / 10) with _ | ⟨a, t0⟩
      · exact absurd hA hne
      refine ⟨by simp [natDigsAux, h10], ?_, ?_, ?_⟩
      · intro c hc
        simp [natDigsAux, h10] at hc
        rcases hc with hc | hc
        · exact hdigs c hc
        · subst hc; exact isDigitChar_digitChar _ hmod
      · simp only [natDigsAux, h10, if_neg (by omega : ¬ n < 10)]
        simp [digitsToNat, List.foldl_append, digitChar_toNat _ hmod]
        have : List.foldl (fun a c => a * 10 + (c.toNat - 48)) 0 (natDigsAux f (n / 10)) = n / 10 := hval
        rw [this]
        omega
      · intro t hne0 heq
        simp only [natDigsAux, if_neg (by omega : ¬ n < 10)] at heq
        rw [hA] at heq
        have ha0 : a = '0' := by
          have := congrArg (List.head? ·) heq
          simpa using this
        have : n / 10 ≠ 0 := by omega
        exact hhead t0 this (by rw [hA, ha0])

theorem natDigs_spec (n : Nat) :
    natDigs n ≠ [] ∧
    (∀ c ∈ natDigs n, isDigitChar c = true) ∧
    digitsToNat (natDigs n) = n ∧
    (∀ t, n ≠ 0 → natDigs n ≠ '0' :: t) :=
  natDigsAux_spec (n + 1) n (by omega)

/-- Input positions at which a serialized number may stop: end of
input, or a character that neither extends the digit run nor turns the
literal into a float. -/
def sepOk : List Char → Prop
  | [] => True
  | c :: _ => isDigitChar c = false ∧ c ≠ '.' ∧ c ≠ 'e' ∧ c ≠ 'E'

theorem checkIntEnd_sepOk (n : Nat) (rest : List Char) (h : sepOk rest) :
    checkIntEnd n rest = some (n, rest) := by
  rcases rest with _ | ⟨c, t⟩
  · rfl
  · obtain ⟨_, h2, h3, h4⟩ := h
    simp [checkIntEnd, h2, h3, h4]

theorem spanDigits_append (ds rest : List Char)
    (hds : ∀ c ∈ ds, isDigitChar c = true)
    (hrest : ∀ c t, rest = c :: t → isDigitChar c = false) :
    spanDigits (ds ++ rest) = (ds, rest) := by
  induction ds with
  | nil =>
    rcases rest with _ | ⟨c, t⟩
    · rfl
    · simp [spanDigits, hrest c t rfl]
  | cons d ds ih =>
    have hd : isDigitChar d = true := hds d (by simp)
    simp only [List.cons_append, spanDigits, hd, if_pos, List.append_eq]
    rw [ih (fun c hc => hds c (by simp [hc]))]

theorem char_ne_of_toNat_ne {c d : Char} (h : c.toNat ≠ d.toNat) : c ≠ d :=
  fun he => h (by rw [he])

theorem isDigitChar_bounds {c : Char} (h : isDigitChar c = true) :
    48 ≤ c.toNat ∧ c.toNat ≤ 57 := by
  simpa [isDigitChar] using h

theorem parseNumNat_natDigs (m : Nat) (rest : List Char) (h : sepOk rest) :
    parseNumNat (natDigs m ++ rest) = some (m, rest) := by
  obtain ⟨hne, hdigs, hval, hhead⟩ := natDigs_spec m
  have hrest : ∀ c t, rest = c :: t → isDigitChar c = false := by
    intro c t ht
    rw [ht] at h
    exact h.1
  by_cases hm : m = 0
  · subst hm
    simp [natDigs, natDigsAux, parseNumNat, digitChar, checkIntEnd_sepOk _ _ h]
  · rcases hA : natDigs m with _ | ⟨a, t0⟩
    · exact absurd hA hne
    have ha : isDigitChar a = true := hdigs a (by rw [hA]; simp)
    have ha0 : a ≠ '0' := by
      intro hz
      exact hhead t0 hm (by rw [hA, hz])
    have ht0 : ∀ c ∈ t0, isDigitChar c = true := by
      intro c hc
      exact hdigs c (by rw [hA]; simp [hc])
    rw [List.cons_append]
    simp only [parseNumNat, if_neg ha0, ha, if_pos]
    rw [spanDigits_append t0 rest ht0 hrest]
    have : digitsToNat (a :: t0) = m := by rw [← hA]; exact hval
    simpa [this] using checkIntEnd_sepOk m rest h

theorem parseNum_serNum (n : Int) (rest : List Char) (h : sepOk rest) :
    parseNum (serNum n ++ rest) = some (.num n, rest) := by
  by_cases hn : n < 0
  · have hser : serNum n = '-' :: natDigs n.natAbs := by simp [serNum, hn]
    rw [hser, List.cons_append]
    simp only [parseNum, if_pos]
    rw [parseNumNat_natDigs n.natAbs rest h]
    have habs : -(n.natAbs : Int) = n := by omega
    simp only [Option.map_some']
    rw [habs]
  · have hser : serNum n = natDigs n.natAbs := by simp [serNum, hn]
    obtain ⟨hne, hdigs, _, _⟩ := natDigs_spec n.natAbs
    rcases hA : natDigs n.natAbs with _ | ⟨a, t0⟩
    · exact absurd hA hne
    have ha : isDigitChar a = true := hdigs a (by rw [hA]; simp)
    have hbounds := isDigitChar_bounds ha
    have hnm : a ≠ '-' := char_ne_of_toNat_ne (by simp; omega)
    rw [hser, hA, List.cons_append]
    simp only [parseNum, if_neg hnm]
    rw [← List.cons_append, ← hA, parseNumNat_natDigs n.natAbs rest h]
    have habs : (n.natAbs : Int) = n := by omega
    simp only [Option.map_some']
    rw [habs]

/-! ### Codec correctness: values -/

theorem digit_not_special {c : Char} (h : isDigitChar c = true) :
    isWsChar c = false ∧ c ≠ ']' ∧ c ≠ '}' ∧ c ≠ '"' ∧ c ≠ '{' ∧ c ≠ '[' ∧
    c ≠ 'n' ∧ c ≠ 't' ∧ c ≠ 'f' ∧ c ≠ '-' := by
  have hb := isDigitChar_bounds h
  refine ⟨?_, ?_, ?_, ?_, ?_, ?_, ?_, ?_, ?_, ?_⟩
  · have h1 : c ≠ ' ' := char_ne_of_toNat_ne (by simp; omega)
    have h2 : c ≠ '\t' := char_ne_of_toNat_ne (by simp; omega)
    have h3 : c ≠ '\n' := char_ne_of_toNat_ne (by simp; omega)
    have h4 : c ≠ '\r' := char_ne_of_toNat_ne (by simp; omega)
    simp [isWsChar, h1, h2, h3, h4]
  · exact char_ne_of_toNat_ne (by simp; omega)
  · exact char_ne_of_toNat_ne (by simp; omega)
  · exact char_ne_of_toNat_ne (by simp; omega)
  · exact char_ne_of_toNat_ne (by simp; omega)
  · exact char_ne_of_toNat_ne (by simp; omega)
  · exact char_ne_of_toNat_ne (by simp; omega)
  · exact char_ne_of_toNat_ne (by simp; omega)
  · exact char_ne_of_toNat_ne (by simp; omega)
  · exact char_ne_of_toNat_ne (by simp; omega)

theorem serNum_head (n : Int) :
    ∃ c t, serNum n = c :: t ∧ isWsChar c = false ∧ c ≠ ']' ∧ c ≠ '}' ∧
      c ≠ '"' ∧ c ≠ '{' ∧ c ≠ '[' ∧ c ≠ 'n' ∧ c ≠ 't' ∧ c ≠ 'f' := by
  by_cases hn : n < 0
  · exact ⟨'-', natDigs n.natAbs, by simp [serNum, hn], by decide, by decide,
      by decide, by decide, by decide, by decide, by decide, by decide, by decide⟩
  · obtain ⟨hne, hdigs, _, _⟩ := natDigs_spec n.natAbs
    rcases hA : natDigs n.natAbs with _ | ⟨a, t0⟩
    · exact absurd hA hne
    have ha : isDigitChar a = true := hdigs a (by rw [hA]; simp)
    obtain ⟨d1, d2, d3, d4, d5, d6, d7, d8, d9, _⟩ := digit_not_special ha
    exact ⟨a, t0, by simp [serNum, hn, hA], d1, d2, d3, d4, d5, d6, d7, d8, d9⟩

theorem serJson_head (j : Json) :
    ∃ c t, serJson j = c :: t ∧ (isWsChar c = false ∧ c ≠ ']' ∧ c ≠ '}') := by
  have hnum : ∀ n : Int, ∃ c t, serJson (Json.num n) = c :: t ∧
      (isWsChar c = false ∧ c ≠ ']' ∧ c ≠ '}') := by
    intro n
    obtain ⟨c, t, hct, h1, h2, h3, _⟩ := serNum_head n
    refine ⟨c, t, by simp [serJson, hct], h1, h2, h3⟩
  rcases j with _ | b | n | s | (_ | ⟨x, xs⟩) | (_ | ⟨⟨k, v⟩, kvs⟩)
  · refine ⟨'n', ['u', 'l', 'l'], rfl, by decide⟩
  · rcases b with _ | _
    · refine ⟨'f', ['a', 'l', 's', 'e'], by simp [serJson], by decide⟩
    · refine ⟨'t', ['r', 'u', 'e'], by simp [serJson], by decide⟩
  · exact hnum n
  · refine ⟨'"', escList s.data ++ ['"'], rfl, by decide⟩
  · refine ⟨'[', [']'], rfl, by decide⟩
  · refine ⟨'[', (serJson x ++ serItemsRest xs) ++ [']'], rfl, by decide⟩
  · refine ⟨'{', ['}'], rfl, by decide⟩
  · refine ⟨'{', (serStrLit k ++ ':' :: ' ' :: serJson v ++ serMembersRest kvs) ++ ['}'],
      rfl, by decide⟩

theorem skipWs_notWs {c : Char} (h : isWsChar c = false) (t : List Char) :
    skipWs (c :: t) = c :: t := by
  simp [skipWs, h]

theorem skipWs_serJson (j : Json) (t : List Char) :
    skipWs (serJson j ++ t) = serJson j ++ t := by
  obtain ⟨c, u, hcu, hws, _, _⟩ := serJson_head j
  rw [hcu, List.cons_append, skipWs_notWs hws]

mutual

/-- Fuel that surely suffices for `parseVal` on the serialization of a
value: one unit per nesting level plus one per aggregate element. -/
def fuelNeed : Json → Nat
  | .arr xs => 1 + fuelNeedItems xs
  | .obj kvs => 1 + fuelNeedMembers kvs
  | _ => 1

def fuelNeedItems : List Json → Nat
  | [] => 0
  | x :: xs => 1 + fuelNeed x + fuelNeedItems xs

def fuelNeedMembers : List (String × Json) → Nat
  | [] => 0
  | (_, v) :: kvs => 1 + fuelNeed v + fuelNeedMembers kvs

end

mutual

theorem fuelNeed_le : ∀ j : Json, fuelNeed j ≤ (serJson j).length + 1
  | .null => by simp [fuelNeed, serJson]
  | .bool b => by cases b <;> simp [fuelNeed, serJson]
  | .num n => by simp [fuelNeed]
  | .str s => by simp [fuelNeed]
  | .arr [] => by simp [fuelNeed, fuelNeedItems, serJson]
  | .arr (x :: xs) => by
      have h1 := fuelNeed_le x
      have h2 := fuelNeedItems_le xs
      simp only [fuelNeed, fuelNeedItems, serJson, List.length_cons,
        List.length_append]
      omega
  | .obj [] => by simp [fuelNeed, fuelNeedMembers, serJson]
  | .obj ((k, v) :: kvs) => by
      have h1 := fuelNeed_le v
      have h2 := fuelNeedMembers_le kvs
      simp only [fuelNeed, fuelNeedMembers, serJson, List.length_cons,
        List.length_append]
      omega

theorem fuelNeedItems_le : ∀ xs : List Json, fuelNeedItems xs ≤ (serItemsRest xs).length
  | [] => by simp [fuelNeedItems, serItemsRest]
  | y :: ys => by
      have h1 := fuelNeed_le y
      have h2 := fuelNeedItems_le ys
      simp only [fuelNeedItems, serItemsRest, List.length_cons, List.length_append]
      omega

theorem fuelNeedMembers_le :
    ∀ kvs : List (String × Json), fuelNeedMembers kvs ≤ (serMembersRest kvs).length
  | [] => by simp [fuelNeedMembers, serMembersRest]
  | (k, v) :: kvs => by
      have h1 := fuelNeed_le v
      have h2 := fuelNeedMembers_le kvs
      simp only [fuelNeedMembers, serMembersRest, List.length_cons, List.length_append]
      omega

end

theorem fuelNeed_pos (j : Json) : 1 ≤ fuelNeed j := by
  cases j <;> simp [fuelNeed]

theorem string_mk_data (s : String) : String.mk s.data = s := rfl

mutual

theorem parseVal_ser : ∀ (j : Json) (rest : List Char) (fuel : Nat),
    fuelNeed j ≤ fuel → sepOk rest →
    parseVal fuel (serJson j ++ rest) = some (j, rest)
  | .null, rest, fuel, hf, _ => by
    obtain ⟨f, rfl⟩ : ∃ f, fuel = f + 1 :=
      ⟨fuel - 1, by have := fuelNeed_pos Json.null; omega⟩
    simp [serJson, parseVal]
  | .bool b, rest, fuel, hf, _ => by
    obtain ⟨f, rfl⟩ : ∃ f, fuel = f + 1 :=
      ⟨fuel - 1, by have := fuelNeed_pos (Json.bool b); omega⟩
    cases b <;> simp [serJson, parseVal]
  | .num n, rest, fuel, hf, hsep => by
    obtain ⟨f, rfl⟩ : ∃ f, fuel = f + 1 :=
      ⟨fuel - 1, by have := fuelNeed_pos (Json.num n); omega⟩
    obtain ⟨c, t, hct, _, _, _, hq, hob, hosq, hn, ht, hff⟩ := serNum_head n
    rw [show serJson (Json.num n) = serNum n from rfl, hct, List.cons_append]
    simp only [parseVal, if_neg hq, if_neg hob, if_neg hosq, if_neg hn,
      if_neg ht, if_neg hff]
    rw [← List.cons_append, ← hct]
    exact parseNum_serNum n rest hsep
  | .str s, rest, fuel, hf, _ => by
    obtain ⟨f, rfl⟩ : ∃ f, fuel = f + 1 :=
      ⟨fuel - 1, by have := fuelNeed_pos (Json.str s); omega⟩
    have hnorm : serJson (Json.str s) ++ rest =
        '"' :: (escList s.data ++ '"' :: rest) := by
      simp [serJson, serStrLit]
    rw [hnorm]
    simp [parseVal, parseStrRest_escList s.data rest, string_mk_data]
  | .arr [], rest, fuel, hf, _ => by
    obtain ⟨f, rfl⟩ : ∃ f, fuel = f + 1 :=
      ⟨fuel - 1, by have := fuelNeed_pos (Json.arr []); omega⟩
    simp [serJson, parseVal, skipWs, isWsChar]
  | .arr (x :: xs), rest, fuel, hf, _ => by
    obtain ⟨f, rfl⟩ : ∃ f, fuel = f + 1 :=
      ⟨fuel - 1, by have := fuelNeed_pos (Json.arr (x :: xs)); omega⟩
    have hfi : fuelNeedItems (x :: xs) ≤ f := by
      simp only [fuelNeed] at hf; omega
    have hnorm : serJson (Json.arr (x :: xs)) ++ rest =
        '[' :: (serJson x ++ (serItemsRest xs ++ ']' :: rest)) := by
      simp [serJson]
    rw [hnorm]
    obtain ⟨c, t, hct, hws, hnbr, _⟩ := serJson_head x
    have hskip : skipWs (serJson x ++ (serItemsRest xs ++ ']' :: rest)) =
        c :: (t ++ (serItemsRest xs ++ ']' :: rest)) := by
      rw [skipWs_serJson, hct, List.cons_append]
    simp only [parseVal, hskip]
    simp only [if_neg (show ¬(('[' : Char) = '"') from by decide),
      if_neg (show ¬(('[' : Char) = '{') from by decide),
      if_pos (show ('[' : Char) = '[' from rfl), if_neg hnbr]
    rw [← List.cons_append, ← hct, parseItems_ser x xs rest f hfi]
    rfl
  | .obj [], rest, fuel, hf, _ => by
    obtain ⟨f, rfl⟩ : ∃ f, fuel = f + 1 :=
      ⟨fuel - 1, by have := fuelNeed_pos (Json.obj []); omega⟩
    simp [serJson, parseVal, skipWs, isWsChar]
  | .obj ((k, v) :: kvs), rest, fuel, hf, _ => by
    obtain ⟨f, rfl⟩ : ∃ f, fuel = f + 1 :=
      ⟨fuel - 1, by have := fuelNeed_pos (Json.obj ((k, v) :: kvs)); omega⟩
    have hfm : fuelNeedMembers ((k, v) :: kvs) ≤ f := by
      simp only [fuelNeed] at hf; omega
    have hnorm : serJson (Json.obj ((k, v) :: kvs)) ++ rest =
        '{' :: ('"' :: (escList k.data ++ ('"' :: ':' :: ' ' ::
          (serJson v ++ (serMembersRest kvs ++ '}' :: rest))))) := by
      simp [serJson, serStrLit]
    rw [hnorm]
    have hskip : skipWs ('"' :: (escList k.data ++ ('"' :: ':' :: ' ' ::
        (serJson v ++ (serMembersRest kvs ++ '}' :: rest))))) =
        '"' :: (escList k.data ++ ('"' :: ':' :: ' ' ::
        (serJson v ++ (serMembersRest kvs ++ '}' :: rest)))) :=
      skipWs_notWs (by decide) _
    simp only [parseVal, hskip]
    simp only [if_neg (show ¬(('{' : Char) = '"') from by decide),
      if_pos (show ('{' : Char) = '{' from rfl),
      if_neg (show ¬(('"' : Char) = '}') from by decide)]
    rw [parseMembers_ser k v kvs rest f hfm]
    rfl
termination_by _ _ fuel _ _ => fuel
decreasing_by
  all_goals simp_wf
  all_goals omega

theorem parseItems_ser : ∀ (x : Json) (xs : List Json) (rest : List Char) (fuel : Nat),
    fuelNeedItems (x :: xs) ≤ fuel →
    parseItems fuel (serJson x ++ (serItemsRest xs ++ ']' :: rest)) =
      some (x :: xs, rest)
  | x, xs, rest, fuel, hf => by
    obtain ⟨f, rfl⟩ : ∃ f, fuel = f + 1 :=
      ⟨fuel - 1, by simp only [fuelNeedItems] at hf; omega⟩
    have hfx : fuelNeed x ≤ f := by simp only [fuelNeedItems] at hf; omega
    have hsep : sepOk (serItemsRest xs ++ ']' :: rest) := by
      cases xs with
      | nil => exact ⟨by decide, by decide, by decide, by decide⟩
      | cons y ys => exact ⟨by decide, by decide, by decide, by decide⟩
    simp only [parseItems]
    cases xs with
    | nil =>
      rw [parseVal_ser x _ f hfx hsep]
      simp [serItemsRest, skipWs, isWsChar]
    | cons y ys =>
      have hfy : fuelNeedItems (y :: ys) ≤ f := by
        simp only [fuelNeedItems] at hf ⊢; omega
      have hnorm : serItemsRest (y :: ys) ++ ']' :: rest =
          ',' :: ' ' :: (serJson y ++ (serItemsRest ys ++ ']' :: rest)) := by
        simp [serItemsRest]
      rw [hnorm] at hsep ⊢
      rw [parseVal_ser x _ f hfx hsep]
      have hi := parseItems_ser y ys rest f hfy
      simp [skipWs, isWsChar, skipWs_serJson, hi]
termination_by _ _ _ fuel _ => fuel
decreasing_by
  all_goals simp_wf
  all_goals omega

theorem parseMembers_ser : ∀ (k : String) (v : Json) (kvs : List (String × Json))
    (rest : List Char) (fuel : Nat),
    fuelNeedMembers ((k, v) :: kvs) ≤ fuel →
    parseMembers fuel ('"' :: (escList k.data ++ ('"' :: ':' :: ' ' ::
      (serJson v ++ (serMembersRest kvs ++ '}' :: rest))))) =
      some ((k, v) :: kvs, rest)
  | k, v, kvs, rest, fuel, hf => by
    obtain ⟨f, rfl⟩ : ∃ f, fuel = f + 1 :=
      ⟨fuel - 1, by simp only [fuelNeedMembers] at hf; omega⟩
    have hfv : fuelNeed v ≤ f := by simp only [fuelNeedMembers] at hf; omega
    have hsep : sepOk (serMembersRest kvs ++ '}' :: rest) := by
      cases kvs with
      | nil => exact ⟨by decide, by decide, by decide, by decide⟩
      | cons kv kvs2 =>
        obtain ⟨k2, v2⟩ := kv
        exact ⟨by decide, by decide, by decide, by decide⟩
    cases kvs with
    | nil =>
      have hv := parseVal_ser v ('}' :: rest) f hfv
        ⟨by decide, by decide, by decide, by decide⟩
      simp [parseMembers, parseStrRest_escList, skipWs, isWsChar,
        skipWs_serJson, serMembersRest, hv, string_mk_data]
    | cons kv kvs2 =>
      obtain ⟨k2, v2⟩ := kv
      have hfm2 : fuelNeedMembers ((k2, v2) :: kvs2) ≤ f := by
        simp only [fuelNeedMembers] at hf ⊢; omega
      have hnorm : serMembersRest ((k2, v2) :: kvs2) ++ '}' :: rest =
          ',' :: ' ' :: ('"' :: (escList k2.data ++ ('"' :: ':' :: ' ' ::
            (serJson v2 ++ (serMembersRest kvs2 ++ '}' :: rest))))) := by
        simp [serMembersRest, serStrLit]
      rw [hnorm] at hsep ⊢
      have hv := parseVal_ser v _ f hfv hsep
      have hm := parseMembers_ser k2 v2 kvs2 rest f hfm2
      simp [parseMembers, parseStrRest_escList, skipWs, isWsChar,
        skipWs_serJson, hv, hm, string_mk_data]
termination_by _ _ _ _ fuel _ => fuel
decreasing_by
  all_goals simp_wf
  all_goals omega

end

/-- Round trip of the codec: parsing a serialized JSON value yields the
value back. -/
theorem jsonLoads_jsonDumps (j : Json) : jsonLoads (jsonDumps j) = some j := by
  have hskip : skipWs (serJson j) = serJson j := by
    have := skipWs_serJson j []
    simpa using this
  have hfuel : fuelNeed j ≤ (serJson j).length + 1 := fuelNeed_le j
  have h := parseVal_ser j [] ((serJson j).length + 1) hfuel trivial
  rw [List.append_nil] at h
  simp only [jsonLoads, jsonDumps]
  rw [hskip, h]
  simp [skipWs]

/-! ### Protocol state machine properties -/

theorem runMsgs_closed (c : Ctx) (se : Json → Option String) (s : Session)
    (msgs : List String) : runMsgs c se s true msgs = (s, [], true) := by
  cases msgs <;> simp [runMsgs]

/-- C1: while the phase is `awaiting-challenge`, a frame that is an
Event named `connect.challenge` makes the handler emit exactly one
connect Request — whose params are exactly `minProtocol=3`,
`maxProtocol=3`, the constant client identity, role `operator`, the
four fixed operator scopes, empty `caps`, and `auth={token}` — and move
the phase to `awaiting-hello` (the spec's `AwaitingConnectAck`); any
other frame leaves the state untouched and emits nothing. -/
theorem c1_challenge_transition (c : Ctx) (se : Json → Option String)
    (s : Session) (frame : Json) (hp : s.phase = .awaitingChallenge) :
    (frame.find? "type" = some (.str "event") →
      frame.getD "event" .null = .str "connect.challenge" →
      se (connectReq c) = none →
      handleFrame c se s frame =
        ⟨{ s with phase := .awaitingHello },
         [Json.obj [("type", .str "req"), ("id", .str c.connectId),
            ("method", .str "connect"),
            ("params", Json.obj
              [("minProtocol", .num 3), ("maxProtocol", .num 3),
               ("client", Json.obj
                 [("id", .str "check-node-pairs"), ("version", .str "1.0.0"),
                  ("platform", .str "cli"), ("mode", .str "backend")]),
               ("role", .str "operator"),
               ("scopes", Json.arr
                 [.str "operator.read", .str "operator.write",
                  .str "operator.pairing", .str "operator.admin"]),
               ("caps", Json.arr []),
               ("auth", Json.obj [("token", .str c.token)])])]], false⟩) ∧
    (¬(frame.getD "type" .null = .str "event" ∧
        frame.getD "event" .null = .str "connect.challenge") →
      handleFrame c se s frame = ⟨s, [], false⟩) := by
  constructor
  · intro ht he hs
    simp only [connectReq, connectParams] at hs
    simp [handleFrame, ht, hp, he, hs, connectReq, connectParams]
  · intro hno
    rcases hft : frame.find? "type" with _ | ftype
    · simp [handleFrame, hft]
    · have hgd : frame.getD "type" Json.null = ftype := by simp [Json.getD, hft]
      rw [hgd] at hno
      simp [handleFrame, hft, hp, hno]

/-- Witness for C1 at a concrete context, session and frame. -/
theorem c1_challenge_transition_witness :
    handleFrame cexCtx noSend initialSession challengeFrame =
      ⟨{ initialSession with phase := .awaitingHello },
       [Json.obj [("type", .str "req"), ("id", .str cexCtx.connectId),
          ("method", .str "connect"),
          ("params", Json.obj
            [("minProtocol", .num 3), ("maxProtocol", .num 3),
             ("client", Json.obj
               [("id", .str "check-node-pairs"), ("version", .str "1.0.0"),
                ("platform", .str "cli"), ("mode", .str "backend")]),
             ("role", .str "operator"),
             ("scopes", Json.arr
               [.str "operator.read", .str "operator.write",
                .str "operator.pairing", .str "operator.admin"]),
             ("caps", Json.arr []),
             ("auth", Json.obj [("token", .str cexCtx.token)])])]], false⟩ :=
  (c1_challenge_transition cexCtx noSend initialSession challengeFrame rfl).1
    (by decide) (by decide) rfl

/-- C2: a Response whose id differs from the correlation id outstanding
for the current phase (`connect_id` in `awaiting-hello`, `rpc_id` in
`awaiting-response`) leaves phase, result and error unchanged and emits
no frame. -/
theorem c2_mismatched_response_ignored (c : Ctx) (se : Json → Option String)
    (s : Session) (frame : Json)
    (ht : frame.find? "type" = some (.str "res"))
    (h : (s.phase = .awaitingHello ∧ frame.getD "id" .null ≠ .str c.connectId) ∨
         (s.phase = .awaitingResponse ∧ frame.getD "id" .null ≠ .str c.rpcId)) :
    handleFrame c se s frame = ⟨s, [], false⟩ := by
  rcases h with ⟨hp, hid⟩ | ⟨hp, hid⟩ <;> simp [handleFrame, ht, hp, hid]

/-- Witness for C2 at a concrete mismatched response. -/
theorem c2_mismatched_response_ignored_witness :
    handleFrame cexCtx noSend helloSession
      (.obj [("type", .str "res"), ("id", .str "other"), ("ok", .bool true)]) =
      ⟨helloSession, [], false⟩ :=
  c2_mismatched_response_ignored cexCtx noSend helloSession _
    (by decide) (Or.inl ⟨rfl, by decide⟩)

/-- C3: a connect Response with matching id and `ok: true` received in
`awaiting-hello` advances the phase to `awaiting-response` (the spec's
`AwaitingCallResult`) and emits exactly one `node.pair.list` call
Request with empty params, carrying the freshly generated `rpc_id`,
which is distinct from `connect_id` (uuid freshness is the hypothesis
`hfresh`). -/
theorem c3_connect_ok_advances (c : Ctx) (se : Json → Option String)
    (s : Session) (frame : Json)
    (hp : s.phase = .awaitingHello)
    (ht : frame.find? "type" = some (.str "res"))
    (hid : frame.getD "id" .null = .str c.connectId)
    (hok : frame.getD "ok" .null = .bool true)
    (hsend : se (rpcReq c) = none)
    (hfresh : c.connectId ≠ c.rpcId) :
    handleFrame c se s frame =
      ⟨{ s with phase := .awaitingResponse }, [rpcReq c], false⟩ ∧
    rpcReq c = Json.obj [("type", .str "req"), ("id", .str c.rpcId),
      ("method", .str "node.pair.list"), ("params", .obj [])] ∧
    (rpcReq c).find? "id" = some (.str c.rpcId) ∧
    (rpcReq c).find? "id" ≠ some (.str c.connectId) := by
  refine ⟨?_, rfl, ?_, ?_⟩
  · simp [handleFrame, ht, hp, hid, hok, truthy, hsend]
  · simp [rpcReq, Json.find?, lookupLast]
  · have hne := Ne.symm hfresh
    simp [rpcReq, Json.find?, lookupLast, hne]

/-- Witness for C3 at a concrete context, session and frame. -/
theorem c3_connect_ok_advances_witness :
    handleFrame cexCtx noSend helloSession okTrueConnectRes =
      ⟨{ helloSession with phase := .awaitingResponse }, [rpcReq cexCtx], false⟩ :=
  (c3_connect_ok_advances cexCtx noSend helloSession okTrueConnectRes rfl
    (by decide) (by decide) (by decide) rfl (by decide)).1

/-- C4 (counterexample): a matching connect Response with `ok: false`
whose `error` field is present but not a mapping makes the handler
record the text of the `AttributeError` raised by `.get` — not
`error.message` and not the `"Handshake failed"` default — and, because
the exception skips line 114, `ws.close()` is never called, contrary to
the claim that close is requested for every rejecting connect
Response. -/
theorem c4_counterexample :
    handleFrame cexCtx noSend helloSession
      (.obj [("type", .str "res"), ("id", .str "cid-1"), ("ok", .bool false),
             ("error", .str "x")]) =
      ⟨⟨.awaitingHello, false, defaultResult,
        some (.str "\x27str\x27 object has no attribute \x27get\x27")⟩,
       [], false⟩ ∧
    Json.str "\x27str\x27 object has no attribute \x27get\x27" ≠
      .str "Handshake failed" := by
  exact ⟨by decide, by decide⟩

/-- C4 (amended): for a matching connect Response with `ok: false`
whose `error` field is absent or a mapping, the handler records
`error.message` (default `"Handshake failed"` when absent), requests
connection close, emits nothing — and, the transport delivering no
further frames after close, no call Request is ever sent afterwards. -/
theorem c4_reject_records_error (c : Ctx) (se : Json → Option String)
    (s : Session) (frame : Json) (msgs : List String)
    (hp : s.phase = .awaitingHello)
    (ht : frame.find? "type" = some (.str "res"))
    (hid : frame.getD "id" .null = .str c.connectId)
    (hok : frame.getD "ok" .null = .bool false)
    (herr : ∃ kvs, frame.getD "error" (.obj []) = .obj kvs) :
    handleFrame c se s frame =
      ⟨{ s with errorMsg := some ((frame.getD "error" (.obj [])).getD "message"
          (.str "Handshake failed")) }, [], true⟩ ∧
    (runMsgs c se (handleFrame c se s frame).sess true msgs).2.1 = [] := by
  obtain ⟨kvs, hkvs⟩ := herr
  have hmsg : (frame.getD "error" (Json.obj [])).getD "message"
      (.str "Handshake failed") =
      (lookupLast kvs "message").getD (.str "Handshake failed") := by
    rw [hkvs]
    simp [Json.getD, Json.find?]
  have h1 : handleFrame c se s frame =
      ⟨{ s with errorMsg := some ((frame.getD "error" (.obj [])).getD "message"
          (.str "Handshake failed")) }, [], true⟩ := by
    simp [handleFrame, ht, hp, hid, hok, truthy, hkvs, pyGet, hmsg]
    simp [Json.getD, Json.find?]
  refine ⟨h1, ?_⟩
  rw [h1, runMsgs_closed]

/-- Witness for the amended C4 at a concrete rejecting response with no
error field. -/
theorem c4_reject_records_error_witness :
    handleFrame cexCtx noSend helloSession okFalseConnectRes =
      ⟨{ helloSession with errorMsg := some (.str "Handshake failed") }, [],
        true⟩ :=
  (c4_reject_records_error cexCtx noSend helloSession okFalseConnectRes
    ["later"] rfl (by decide) (by decide) (by decide) ⟨[], by decide⟩).1

/-- C5 (counterexample): a matching call Response with `ok: true` and a
present but malformed payload (here the string `"junk"`) makes the
handler adopt that malformed payload verbatim as the result — not the
`{pending: [], paired: []}` default the claim promises for malformed
payloads. -/
theorem c5_counterexample :
    (handleFrame cexCtx noSend respSession
      (.obj [("type", .str "res"), ("id", .str "rid-2"), ("ok", .bool true),
             ("payload", .str "junk")])).sess.result = .str "junk" ∧
    Json.str "junk" ≠ defaultResult := by
  exact ⟨by decide, by decide⟩

/-- C5 (amended): a matching call Response with `ok: true` in
`awaiting-response` sets the result to the response's payload whenever
the `payload` key is present (whatever its shape), falling back to the
`{pending: [], paired: []}` default only when the key is absent; it
marks the response received, requests close and emits nothing. -/
theorem c5_call_ok_success (c : Ctx) (se : Json → Option String)
    (s : Session) (frame : Json)
    (hp : s.phase = .awaitingResponse)
    (ht : frame.find? "type" = some (.str "res"))
    (hid : frame.getD "id" .null = .str c.rpcId)
    (hok : frame.getD "ok" .null = .bool true) :
    handleFrame c se s frame =
      ⟨{ s with result := frame.getD "payload" defaultResult,
                responseReceived := true }, [], true⟩ ∧
    (frame.find? "payload" = none →
      frame.getD "payload" defaultResult = defaultResult) := by
  constructor
  · simp [handleFrame, ht, hp, hid, hok, truthy]
  · intro hnone
    simp [Json.getD, hnone]

/-- Witness for the amended C5 at a concrete successful call
response. -/
theorem c5_call_ok_success_witness :
    handleFrame cexCtx noSend respSession
      (.obj [("type", .str "res"), ("id", .str "rid-2"), ("ok", .bool true),
             ("payload", .obj [("pending", .arr []),
                               ("paired", .arr [.obj [("nodeId", .str "n1")]])])]) =
      ⟨{ respSession with
          result := .obj [("pending", .arr []),
                          ("paired", .arr [.obj [("nodeId", .str "n1")]])],
          responseReceived := true }, [], true⟩ :=
  (c5_call_ok_success cexCtx noSend respSession _ rfl (by decide) (by decide)
    (by decide)).1

/-- C6: a raw message that does not decode, or decodes to a value that
is not a mapping carrying a `"type"` key, produces no envelope: the
handler returns with the state unchanged, nothing sent and no close
requested (the decode failure is swallowed by the `except` clause, the
guard drops the rest), in every phase. -/
theorem c6_malformed_ignored (c : Ctx) (se : Json → Option String)
    (s : Session) (raw : String)
    (h : jsonLoads raw = none ∨
         ∃ j, jsonLoads raw = some j ∧ j.find? "type" = none) :
    handleMessage c se s raw = ⟨s, [], false⟩ := by
  rcases h with h | ⟨j, hj, hty⟩
  · simp [handleMessage, h]
  · simp [handleMessage, hj, handleFrame, hty]

/-- Witness for C6 at a concrete truncated message. -/
theorem c6_malformed_ignored_witness :
    handleMessage cexCtx noSend helloSession "\x7b\"type\": " =
      ⟨helloSession, [], false⟩ :=
  c6_malformed_ignored cexCtx noSend helloSession _ (Or.inl (by decide))

/-- C7: serializing the connect Request with the codec and parsing the
bytes back yields the very same envelope, whose `type` is `"req"`,
whose `id` is the original `connect_id`, whose `method` is
`"connect"`, and whose `params` are structurally the original parameter
object. -/
theorem c7_connect_roundtrip (c : Ctx) :
    jsonLoads (jsonDumps (connectReq c)) = some (connectReq c) ∧
    (connectReq c).find? "type" = some (.str "req") ∧
    (connectReq c).find? "id" = some (.str c.connectId) ∧
    (connectReq c).find? "method" = some (.str "connect") ∧
    (connectReq c).find? "params" = some (connectParams c) := by
  refine ⟨jsonLoads_jsonDumps _, ?_, ?_, ?_, ?_⟩ <;>
    simp [connectReq, Json.find?, lookupLast]

/-- Witness for C7 at a concrete context. -/
theorem c7_connect_roundtrip_witness :
    jsonLoads (jsonDumps (connectReq cexCtx)) = some (connectReq cexCtx) :=
  (c7_connect_roundtrip cexCtx).1

/-- C8 (counterexample): when `ws.send` raises while a matching
`ok: true` connect Response is handled, the exception is caught and its
text recorded as the error — but the resulting state is not the state
an `ok: false` Response produces: no close is requested (the rejection
path requests one) and the phase, assigned before the send, stays
advanced (the rejection path leaves it). -/
theorem c8_counterexample :
    (handleFrame cexCtx boomSend helloSession okTrueConnectRes).sess.errorMsg =
      some (.str "boom") ∧
    (handleFrame cexCtx boomSend helloSession okTrueConnectRes).closed = false ∧
    (handleFrame cexCtx boomSend helloSession okTrueConnectRes).sess.phase =
      .awaitingResponse ∧
    (handleFrame cexCtx noSend helloSession okFalseConnectRes).closed = true ∧
    (handleFrame cexCtx noSend helloSession okFalseConnectRes).sess.phase =
      .awaitingHello := by
  exact ⟨by decide, by decide, by decide, by decide, by decide⟩

/-- C8 (amended): an exception raised by `ws.send` while handling a
frame is caught and its text recorded as the session's error; the
handler returns normally with nothing emitted, but — unlike the
`ok: false` Response path — no close is requested and the phase
assignment already performed stands; a non-empty recorded error then
makes the completed invocation fail with that text. -/
theorem c8_exception_recorded (c : Ctx) (se : Json → Option String)
    (s : Session) (frame : Json) (e : String) :
    (s.phase = .awaitingChallenge →
      frame.find? "type" = some (.str "event") →
      frame.getD "event" .null = .str "connect.challenge" →
      se (connectReq c) = some e →
      handleFrame c se s frame =
        ⟨{ s with phase := .awaitingHello, errorMsg := some (.str e) }, [],
          false⟩) ∧
    (s.phase = .awaitingHello →
      frame.find? "type" = some (.str "res") →
      frame.getD "id" .null = .str c.connectId →
      frame.getD "ok" .null = .bool true →
      se (rpcReq c) = some e →
      handleFrame c se s frame =
        ⟨{ s with phase := .awaitingResponse, errorMsg := some (.str e) }, [],
          false⟩) ∧
    (∀ s' : Session, s'.errorMsg = some (.str e) → e ≠ "" →
      finish s' = .error (.str e)) := by
  refine ⟨?_, ?_, ?_⟩
  · intro hp ht he hs
    simp [handleFrame, ht, hp, he, hs]
  · intro hp ht hid hok hs
    simp [handleFrame, ht, hp, hid, hok, truthy, hs]
  · intro s' hs' hne
    simp [finish, hs', truthy, hne]

/-- Witness for the amended C8: a failing send while the connect
acknowledgement is handled. -/
theorem c8_exception_recorded_witness :
    handleFrame cexCtx boomSend helloSession okTrueConnectRes =
      ⟨⟨.awaitingResponse, false, defaultResult, some (.str "boom")⟩,
       [], false⟩ :=
  (c8_exception_recorded cexCtx boomSend helloSession okTrueConnectRes
    "boom").2.1 rfl (by decide) (by decide) (by decide) rfl

/-- C9 (counterexample): for the non-empty token `"abc"` the displayed
record is `"    Token: abc..."`: Python's `token[:20]` keeps a token of
at most 20 characters whole, so the full token value is output,
contradicting the claim that every token of any length is partially
redacted. -/
theorem c9_counterexample :
    tokenShown "abc" = some ("    Token: " ++ "abc" ++ "...") ∧
    "abc" ≠ "" := by
  exact ⟨by decide, by decide⟩

/-- C9 (amended): every non-empty string token is displayed as its
first 20 characters followed by an ellipsis; a token longer than 20
characters is thereby shown as a proper truncation, while a token of at
most 20 characters appears in full before the ellipsis. -/
theorem c9_token_display (t : String) (h : t ≠ "") :
    tokenShown t = some ("    Token: " ++ String.mk (t.data.take 20) ++ "...") ∧
    (t.data.length ≤ 20 → String.mk (t.data.take 20) = t) ∧
    (20 < t.data.length → String.mk (t.data.take 20) ≠ t) := by
  refine ⟨by simp [tokenShown, h], ?_, ?_⟩
  · intro hle
    rw [List.take_of_length_le hle]
  · intro hgt heq
    have hlen : (t.data.take 20).length = 20 := by
      rw [List.length_take]
      omega
    have hdata : t.data.take 20 = t.data := congrArg String.data heq
    rw [hdata] at hlen
    omega

/-- Witness for the amended C9 at the spec's 26-character scenario
token. -/
theorem c9_token_display_witness :
    tokenShown "abcdefghijklmnopqrstuvwxyz" =
      some ("    Token: " ++
        String.mk ("abcdefghijklmnopqrstuvwxyz".data.take 20) ++ "...") ∧
    String.mk ("abcdefghijklmnopqrstuvwxyz".data.take 20) ≠
      "abcdefghijklmnopqrstuvwxyz" :=
  ⟨(c9_token_display "abcdefghijklmnopqrstuvwxyz" (by decide)).1,
   (c9_token_display "abcdefghijklmnopqrstuvwxyz" (by decide)).2.2 (by decide)⟩

/-- C10 (counterexample): a connect rejection carrying the empty error
message records `error_msg = ""`, which is falsy, so the final
`if error_msg:` check does not raise and the invocation returns the
accumulated result even though an error message was recorded —
contradicting the claim that any recorded error takes precedence. -/
theorem c10_counterexample :
    (handleFrame cexCtx noSend initialSession challengeFrame).sess =
      helloSession ∧
    (handleFrame cexCtx noSend helloSession
      (.obj [("type", .str "res"), ("id", .str "cid-1"), ("ok", .bool false),
             ("error", .obj [("message", .str "")])])).sess.errorMsg =
      some (.str "") ∧
    finish (handleFrame cexCtx noSend helloSession
      (.obj [("type", .str "res"), ("id", .str "cid-1"), ("ok", .bool false),
             ("error", .obj [("message", .str "")])])).sess =
      .ok defaultResult := by
  exact ⟨by decide, by decide, rfl⟩

/-- C10 (amended): at completion a recorded truthy (non-empty) error
message takes precedence — `check_node_pairs` raises it even when a
successful payload was adopted; the accumulated result is returned
exactly when no error was recorded or the recorded error value is
falsy (such as the empty string). -/
theorem c10_error_precedence (s : Session) :
    (∀ m, s.errorMsg = some m → truthy m = true → finish s = .error m) ∧
    (s.errorMsg = none → finish s = .ok s.result) ∧
    (∀ m, s.errorMsg = some m → truthy m = false → finish s = .ok s.result) := by
  refine ⟨?_, ?_, ?_⟩
  · intro m hm ht
    simp [finish, hm, ht]
  · intro hm
    simp [finish, hm]
  · intro m hm ht
    simp [finish, hm, ht]

/-- Witness for the amended C10: a session that adopted a successful
result but also recorded a non-empty error raises the error. -/
theorem c10_error_precedence_witness :
    finish ⟨.awaitingResponse, true, .obj [("pending", .arr []),
      ("paired", .arr [.obj [("nodeId", .str "n1")]])], some (.str "boom")⟩ =
      .error (.str "boom") :=
  (c10_error_precedence _).1 (.str "boom") rfl (by decide)

end NodePairs
